import Mathlib

/-!
# Verification of the napari chunk loading and caching subsystem

Shallow embedding of the chunk-loading core of the `pwinston/napari`
repository, together with theorems settling the frozen claims about it.

Each definition is translated from a specific source location, noted in its
doc comment.  Python floats on the values appearing in the claims are exact,
so they are modelled by `ℚ`; Python `int` by `Int`/`Nat`; fallible
operations by `Except`/`Option`.
-/

set_option autoImplicit false

namespace Napari

/-! ## ChunkKey (src/napari/components/chunk/_request.py)

`ChunkKey.__init__` receives `indices`, a sequence of Python `int`s and
`slice` objects, and normalizes each entry through `_index_to_tuple`.
-/

/-- A raw index passed to `ChunkKey.__init__`: either an `int` or a `slice`
(whose `start`/`stop`/`step` may each be `None`). -/
inductive PyIndex where
  | int (i : Int)
  | slice (start stop step : Option Int)
deriving DecidableEq

/-- The hashable normal form produced by `_index_to_tuple`
(`_request.py` lines 126-143): a slice becomes the tuple
`(start, stop, step)`, an int is returned unchanged. -/
inductive IndexTuple where
  | int (i : Int)
  | tuple (start stop step : Option Int)
deriving DecidableEq

/-- Embeds `_index_to_tuple` (`_request.py` lines 126-143). -/
def indexToTuple : PyIndex → IndexTuple
  | .int i => .int i
  | .slice a b c => .tuple a b c

/-- Embeds `ChunkKey` (`_request.py` lines 19-47).  Fields set in `__init__`:
`layer_id = id(layer)`, `data_level = layer._data_level`,
`indices = tuple(_index_to_tuple(x) for x in indices)` and the combined
tuple `key = (layer_id, data_level, indices)`. -/
structure ChunkKey where
  layer_id : Nat
  data_level : Nat
  indices : List IndexTuple
deriving DecidableEq

/-- The `self.key` tuple `(layer_id, data_level, indices)` built in
`ChunkKey.__init__` (line 38). -/
def ChunkKey.keyTuple (k : ChunkKey) : Nat × Nat × List IndexTuple :=
  (k.layer_id, k.data_level, k.indices)

/-- Embeds `ChunkKey.__init__` (lines 30-38): store `id(layer)`, the layer's
`_data_level`, and the normalized indices. -/
def mkChunkKey (layer_id data_level : Nat) (indices : List PyIndex) : ChunkKey :=
  { layer_id := layer_id
    data_level := data_level
    indices := indices.map indexToTuple }

/-- Embeds `ChunkKey.__eq__` (lines 46-47): `self.key == other.key`. -/
def ChunkKey.pyEq (a b : ChunkKey) : Bool :=
  decide (a.keyTuple = b.keyTuple)

/-- Python 3 data model rule for `__hash__`: a class that defines `__eq__`
without also defining `__hash__` has its `__hash__` set to `None`, so its
instances are unhashable (`hash(x)` raises `TypeError` and `x` cannot be a
`dict`/`set` key).  A class keeps hash support iff it defines `__hash__`
itself or leaves `__eq__` untouched. -/
def pyClassHashable (definesEq definesHash : Bool) : Bool :=
  definesHash || !definesEq

/-- In the source, `ChunkKey` defines `__eq__` (`_request.py` line 46). -/
def chunkKeyDefinesEq : Bool := true

/-- In the source, `ChunkKey` defines no `__hash__` anywhere in `_request.py`. -/
def chunkKeyDefinesHash : Bool := false

/-- Whether `ChunkKey` instances are hashable under the Python 3 rule. -/
def chunkKeyHashable : Bool :=
  pyClassHashable chunkKeyDefinesEq chunkKeyDefinesHash

/-- C1: two ChunkKeys built from equal `(source_id, level, indices)`
triples compare equal under `__eq__`, and keys from differing triples
compare unequal; but `ChunkKey` is NOT hashable: it defines `__eq__`
without `__hash__`, so Python sets `__hash__ = None` and any attempt to
use a `ChunkKey` as a dictionary or cache key raises `TypeError`.  The
theorem evaluates the embedded code at the failing input
`(layer_id 1, level 0, indices (7, slice(0,100,1)))`. -/
theorem chunkkey_eq_ok_but_unhashable :
    ChunkKey.pyEq
        (mkChunkKey 1 0 [.int 7, .slice (some 0) (some 100) (some 1)])
        (mkChunkKey 1 0 [.int 7, .slice (some 0) (some 100) (some 1)]) = true
    ∧ ChunkKey.pyEq
        (mkChunkKey 1 0 [.int 7, .slice (some 0) (some 100) (some 1)])
        (mkChunkKey 2 0 [.int 7, .slice (some 0) (some 100) (some 1)]) = false
    ∧ chunkKeyHashable = false := by
  refine ⟨by decide, by decide, by decide⟩

/-! ## ChunkCache (src/napari/utils/chunk/_cache.py)

`ChunkCache` wraps a `cachetools.LRUCache` built with
`maxsize = _get_cache_size_bytes(CACHE_MEM_FRACTION)` and
`getsizeof = _getsizeof_chunks`.  `cachetools` is a third-party
dependency; its `Cache.__setitem__` is modelled below from its source:
it first computes `size = self.getsizeof(value)` and raises
`ValueError("value too large")` when `size > maxsize`; otherwise it
evicts least-recently-used entries while `currsize + size > maxsize`
and stores the value, and `LRUCache` then moves the key to the
most-recently-used position.
-/

/-- A numpy array reduced to what the cache observes of it: its byte
size (`array.nbytes`). -/
structure NpArray where
  nbytes : Nat
deriving DecidableEq

/-- The value stored per cache entry: the request's named chunk arrays
(`ChunkArrays = Dict[str, np.ndarray]`). -/
def ChunkArrays : Type := List (String × NpArray)

/-- Embeds `_getsizeof_chunks` (`_cache.py` lines 41-54): sum of `array.nbytes`
over the named arrays of one entry. -/
def getsizeofChunks (chunks : ChunkArrays) : Nat :=
  (chunks.map (fun e => e.2.nbytes)).sum

/-- Embeds `cachetools.LRUCache`, reduced to its observable content: `maxsize`,
the `getsizeof` function, and the entries in recency order
(least recently used first). -/
structure LRUCache (K V : Type) where
  maxsize : Nat
  getsizeof : V → Nat
  entries : List (K × V)

/-- Current total size of the cache (`Cache.currsize`). -/
def lruSize {K V : Type} (getsizeof : V → Nat) (entries : List (K × V)) : Nat :=
  (entries.map (fun e => getsizeof e.2)).sum

/-- The `while self.__currsize + size > maxsize: self.popitem()` loop of
`cachetools.Cache.__setitem__`; `LRUCache.popitem` removes the least
recently used entry (the head in our recency order). -/
def lruEvict {K V : Type} (getsizeof : V → Nat) (size maxsize : Nat) :
    List (K × V) → List (K × V)
  | [] => []
  | e :: rest =>
      if lruSize getsizeof (e :: rest) + size > maxsize then
        lruEvict getsizeof size maxsize rest
      else
        e :: rest

/-- Embeds `cachetools.Cache.__setitem__` composed with the `LRUCache` order
update: reject a value larger than `maxsize` with
`ValueError("value too large")`; otherwise evict (when the key is new or
grew) until the new value fits, store it and mark it most recently
used. -/
def LRUCache.setitem {K V : Type} [DecidableEq K]
    (c : LRUCache K V) (k : K) (v : V) : Except String (LRUCache K V) :=
  let size := c.getsizeof v
  if size > c.maxsize then .error "value too large"
  else
    let old? := c.entries.find? (fun e => e.1 = k)
    let entries1 :=
      match old? with
      | none => lruEvict c.getsizeof size c.maxsize c.entries
      | some e =>
          if c.getsizeof e.2 < size then
            lruEvict c.getsizeof size c.maxsize c.entries
          else
            c.entries
    .ok { c with entries := (entries1.filter (fun e => ¬(e.1 = k))) ++ [(k, v)] }

/-- Embeds `cachetools.LRUCache.get`: `None` on a miss; on a hit return the
value and move the key to the most-recently-used position. -/
def LRUCache.getitem {K V : Type} [DecidableEq K]
    (c : LRUCache K V) (k : K) : Option V × LRUCache K V :=
  match c.entries.find? (fun e => e.1 = k) with
  | none => (none, c)
  | some e =>
      (some e.2,
       { c with entries := (c.entries.filter (fun e => ¬(e.1 = k))) ++ [e] })

/-- The request as seen by `ChunkCache` (`utils/chunk/_cache.py` uses
only `request.key` and `request.chunks`). -/
structure ChunkRequestC where
  key : ChunkKey
  chunks : ChunkArrays

/-- Embeds `ChunkCache.__init__` (`_cache.py` lines 79-81): an `LRUCache` sized
to `nbytes` (a fraction of system RAM, computed once via `psutil`, here a
parameter) with `getsizeof = _getsizeof_chunks`. -/
def mkChunkCache (nbytes : Nat) : LRUCache ChunkKey ChunkArrays :=
  { maxsize := nbytes, getsizeof := getsizeofChunks, entries := [] }

/-- Embeds `ChunkCache.add_chunk` (`_cache.py` lines 83-92):
`self.chunks[request.key] = request.chunks`. -/
def chunkCacheAddChunk (c : LRUCache ChunkKey ChunkArrays)
    (request : ChunkRequestC) : Except String (LRUCache ChunkKey ChunkArrays) :=
  c.setitem request.key request.chunks

/-- Embeds `ChunkCache.get_chunk` (`_cache.py` lines 94-108):
`self.chunks.get(request.key)`. -/
def chunkCacheGetChunk (c : LRUCache ChunkKey ChunkArrays)
    (request : ChunkRequestC) :
    Option ChunkArrays × LRUCache ChunkKey ChunkArrays :=
  c.getitem request.key

/-- C3 counterexample: on a cache with capacity 100 bytes, adding an
entry of 150 bytes does NOT succeed — `cachetools.Cache.__setitem__`
raises `ValueError("value too large")` and the entry is not stored.  The
claim that an oversize entry is always inserted is therefore false. -/
theorem chunkcache_oversize_rejected :
    chunkCacheAddChunk (mkChunkCache 100)
        { key := mkChunkKey 1 0 [.int 0], chunks := [("data", ⟨150⟩)] }
      = .error "value too large" := rfl

/-- C3 amended: inserting an entry whose byte size exceeds the cache's
total capacity is rejected: `add_chunk` propagates
`ValueError("value too large")` from the underlying LRU cache and the
entry is never stored. -/
theorem chunkcache_oversize_always_error
    (nbytes : Nat) (entries : List (ChunkKey × ChunkArrays))
    (request : ChunkRequestC)
    (h : getsizeofChunks request.chunks > nbytes) :
    chunkCacheAddChunk { mkChunkCache nbytes with entries := entries } request
      = .error "value too large" := by
  unfold chunkCacheAddChunk LRUCache.setitem
  simp only [gt_iff_lt] at h
  simp [mkChunkCache, h]

/-- C3 amended, witness: capacity 100, entry of 150 bytes. -/
theorem chunkcache_oversize_always_error_witness :
    chunkCacheAddChunk (mkChunkCache 100)
        { key := mkChunkKey 2 1 [.int 3], chunks := [("data", ⟨150⟩)] }
      = .error "value too large" :=
  chunkcache_oversize_always_error 100 []
    { key := mkChunkKey 2 1 [.int 3], chunks := [("data", ⟨150⟩)] }
    (by decide)

/-! ## ChunkLoader (src/napari/utils/chunk/_loader.py)

`ChunkLoader` keeps `self.futures : Dict[int, List[Future]]` mapping a
`data_id` to the `concurrent.futures.Future` objects submitted for that
data source.  `Future.cancel()` (Python standard library) returns `True`
and cancels the future when it has not started running (also `True` when
it was already cancelled); it returns `False` for a running or finished
future, which keeps running.  A cancelled future's done-callback sees
`CancelledError` from `future.result()`.
-/

/-- The state of a `concurrent.futures.Future`. -/
inductive FutureState where
  | pending
  | running
  | finished
  | cancelled
deriving DecidableEq

/-- One future in the loader's per-source table, with an identity so
distinct submissions can be told apart. -/
structure Future where
  fid : Nat
  state : FutureState
deriving DecidableEq

/-- Embeds `Future.cancel()`: cancels a not-yet-started future and returns
whether the future is (now) cancelled. -/
def Future.cancel (f : Future) : Future × Bool :=
  match f.state with
  | .pending => ({ f with state := .cancelled }, true)
  | .cancelled => (f, true)
  | .running => (f, false)
  | .finished => (f, false)

/-- Embeds `ChunkLoader._clear_pending` (`_loader.py` lines 276-306), core line:
`future_list[:] = [x for x in future_list if x.cancel()]` — call
`cancel()` on every future and keep exactly those for which it returned
`True`. -/
def clearPending (futures : List Future) : List Future :=
  (futures.map Future.cancel).filterMap
    (fun fb => if fb.2 then some fb.1 else none)

/-- What `_load_async` and `_done` read from a `ChunkRequest`:
`request.data_id` and `request.layer_id`. -/
structure ChunkRequestL where
  data_id : Nat
  layer_id : Nat
deriving DecidableEq

/-- The loader's per-source futures table (`ChunkLoader.futures`,
a `defaultdict(list)` keyed by `data_id`). -/
structure LoaderState where
  futures : Nat → List Future

/-- Embeds `ChunkLoader._load_async` (`_loader.py` lines 236-274): first
`_clear_pending(request.data_id)`; then check the cache — on a hit the
satisfied request is returned (second component `true`); on a miss a new
future is submitted and appended to `self.futures[request.data_id]` and
`None` is returned (second component `false`). -/
def loadAsync (st : LoaderState) (request : ChunkRequestL)
    (cacheHit : Bool) (newFuture : Future) : LoaderState × Bool :=
  let cleared := clearPending (st.futures request.data_id)
  if cacheHit then
    (⟨fun d => if d = request.data_id then cleared else st.futures d⟩, true)
  else
    (⟨fun d =>
        if d = request.data_id then cleared ++ [newFuture] else st.futures d⟩,
     false)

/-- Embeds `ChunkLoader._done` (`_loader.py` lines 308-347).  `result = none`
models `future.result()` raising `CancelledError`: the handler returns
at once.  Otherwise the request is added to the cache; then the layer is
resolved through `self.layer_map` and its weak reference
(`_get_layer_for_request`, lines 349-361) — if that yields `None` the
handler returns WITHOUT emitting any event; otherwise exactly one
`chunk_loaded(layer, request)` event is emitted.  Returns the list of
cache additions and the list of emitted events. -/
def chunkLoaderDone (resolveLayer : Nat → Option Nat)
    (result : Option ChunkRequestL) :
    List ChunkRequestL × List (Nat × ChunkRequestL) :=
  match result with
  | none => ([], [])
  | some request =>
      match resolveLayer request.layer_id with
      | none => ([request], [])
      | some layer => ([request], [(layer, request)])

/-- C2: evaluation at the failing input.  Table for source 7 holds
future #0 (already running) and future #1 (pending).  `_clear_pending`
cancels #1, but the filter `if x.cancel()` KEEPS the successfully
cancelled future #1 and DROPS the running future #0; after submitting
the new future #2 the table is `[#1 (cancelled), #2]` — it contains a
cancelled future and has lost the in-flight one, the opposite of the
docstring's "we can't clear in-progress requests that are already
running".  (A cancelled future itself indeed never completes: `_done`
performs no cache add and emits no event on `CancelledError`.) -/
theorem clear_pending_polarity_bug :
    clearPending [⟨0, .running⟩, ⟨1, .pending⟩] = [⟨1, .cancelled⟩]
    ∧ ((loadAsync ⟨fun _ => [⟨0, .running⟩, ⟨1, .pending⟩]⟩ ⟨7, 7⟩ false
          ⟨2, .pending⟩).1.futures 7
        = [⟨1, .cancelled⟩, ⟨2, .pending⟩])
    ∧ chunkLoaderDone (fun _ => some 3) none = ([], []) := by
  refine ⟨rfl, ?_, rfl⟩
  simp [loadAsync, clearPending, Future.cancel]

/-- C4 counterexample: a completed, non-cancelled load whose layer weak
reference no longer resolves publishes NO `chunk_loaded` event — `_done`
returns right after the failed lookup — contradicting the claim that the
event is still published with a null/absent target. -/
theorem done_dead_layer_no_event :
    (chunkLoaderDone (fun _ => none) (some ⟨5, 5⟩)).2 = [] := rfl

/-- C4 amended: for every completed, non-cancelled load whose data
source still resolves, exactly one `chunk_loaded` event is published,
targeted at the resolved layer; when the weak reference no longer
resolves, no event is published (the completion is silently dropped,
after the cache was still populated); a cancelled load adds nothing and
publishes nothing. -/
theorem done_event_policy (resolveLayer : Nat → Option Nat)
    (request : ChunkRequestL) :
    (resolveLayer request.layer_id = none →
      chunkLoaderDone resolveLayer (some request) = ([request], []))
    ∧ (∀ layer, resolveLayer request.layer_id = some layer →
      chunkLoaderDone resolveLayer (some request)
        = ([request], [(layer, request)]))
    ∧ chunkLoaderDone resolveLayer none = ([], []) := by
  refine ⟨fun h => ?_, fun layer h => ?_, rfl⟩
  · simp [chunkLoaderDone, h]
  · simp [chunkLoaderDone, h]

/-- C4 amended, witness at concrete inputs: a dead weak reference gives
one cache add and zero events; a live one gives one event targeted at
layer 3. -/
theorem done_event_policy_witness :
    chunkLoaderDone (fun _ => none) (some ⟨9, 9⟩) = ([⟨9, 9⟩], [])
    ∧ chunkLoaderDone (fun _ => some 3) (some ⟨9, 9⟩)
        = ([⟨9, 9⟩], [(3, ⟨9, 9⟩)]) :=
  ⟨(done_event_policy (fun _ => none) ⟨9, 9⟩).1 rfl,
   (done_event_policy (fun _ => some 3) ⟨9, 9⟩).2.1 3 rfl⟩

/-! ## Octree level selection
(src/napari/layers/image/experimental/_octree_multiscale_slice.py)

`OctreeMultiscaleSlice._get_octree_level` (lines 96-113).  The octree
itself (`octree.py`, `octree_level.py`) is not under `src/`; the
selection code reads only `octree.levels[i].info.scale`,
`octree.image_config.tile_size` and `octree.num_levels`, so an octree is
embedded as that data.  Per the spec (§3, §4.4) each level carries "a
scale factor relative to level 0" and the last level is the coarsest.
-/

/-- What `_get_octree_level` reads from `level.info`. -/
structure OctreeLevelInfoM where
  scale : ℚ
deriving DecidableEq

/-- What `_get_octree_level` reads from the octree: the ordered list of
levels (finest first, coarsest last) and the configured tile size. -/
structure OctreeM where
  levels : List OctreeLevelInfoM
  tile_size : ℚ

/-- A `corners_2d` array: two `[row, col]` corners in data coordinates
(`corners_2d[0] = [row0, col0]`, `corners_2d[1] = [row1, col1]`). -/
structure Corners2d where
  row0 : ℚ
  col0 : ℚ
  row1 : ℚ
  col1 : ℚ
deriving DecidableEq

/-- Embeds `max_tiles = 5` (`_octree_multiscale_slice.py` line 106). -/
def MAX_TILES : ℚ := 5

/-- The `for i, level in enumerate(self._octree.levels)` loop of
`_get_octree_level` (lines 109-111): return the index of the FIRST level
with `(num_tiles / level.info.scale) < max_tiles`, scanning the levels
in order. -/
def findQualifyingLevel (numTiles maxTiles : ℚ) :
    List OctreeLevelInfoM → Option Nat
  | [] => none
  | level :: rest =>
      if numTiles / level.scale < maxTiles then some 0
      else (findQualifyingLevel numTiles maxTiles rest).map (· + 1)

/-- Embeds `OctreeMultiscaleSlice._get_octree_level` (lines 96-113): without
`auto_level` return the current level unchanged; otherwise compute
`width = corners_2d[1][1] - corners_2d[0][1]`,
`num_tiles = width / tile_size`, scan the levels for the first one with
`num_tiles / scale < max_tiles`, and fall back to
`num_levels - 1`. -/
def getOctreeLevel (octree : OctreeM) (octreeLevel : Nat)
    (corners : Corners2d) (autoLevel : Bool) : Nat :=
  if !autoLevel then octreeLevel
  else
    let width := corners.col1 - corners.col0
    let numTiles := width / octree.tile_size
    match findQualifyingLevel numTiles MAX_TILES octree.levels with
    | some i => i
    | none => octree.levels.length - 1

/-- Whether level `i` qualifies: `(span_width / tile_size) / scale_i`
is strictly below `max_tiles`. -/
def qualifies (octree : OctreeM) (corners : Corners2d) (i : Nat) : Prop :=
  ((corners.col1 - corners.col0) / octree.tile_size)
      / (octree.levels.getD i ⟨0⟩).scale < MAX_TILES

/-- The selector the claim describes, following the spec's words: the
COARSEST (highest-index) qualifying level, and the coarsest available
level when none qualifies. -/
def specCoarsestQualifyingLevel (octree : OctreeM) (corners : Corners2d) :
    Nat :=
  let numTiles := (corners.col1 - corners.col0) / octree.tile_size
  let qualifying := (List.range octree.levels.length).filter
      (fun i => decide (numTiles / (octree.levels.getD i ⟨0⟩).scale < MAX_TILES))
  match qualifying.getLast? with
  | some i => i
  | none => octree.levels.length - 1

/-- A two-level octree: scales 1 (finest) and 2 (coarsest), tiles of
size 100. -/
def octreeTwoLevels : OctreeM :=
  { levels := [⟨1⟩, ⟨2⟩], tile_size := 100 }

/-- C5 counterexample: on the two-level octree with a view of width 100,
`num_tiles = 1` so BOTH levels qualify (`1/1 < 5` and `1/2 < 5`); the
coarsest qualifying level is 1, but the code returns level 0 — the loop
returns the first (finest) qualifying level, not the coarsest. -/
theorem auto_level_not_coarsest :
    getOctreeLevel octreeTwoLevels 0 ⟨0, 0, 0, 100⟩ true = 0
    ∧ specCoarsestQualifyingLevel octreeTwoLevels ⟨0, 0, 0, 100⟩ = 1
    ∧ qualifies octreeTwoLevels ⟨0, 0, 0, 100⟩ 0
    ∧ qualifies octreeTwoLevels ⟨0, 0, 0, 100⟩ 1 := by
  refine ⟨?_, ?_, ?_, ?_⟩
  · norm_num [getOctreeLevel, findQualifyingLevel, octreeTwoLevels, MAX_TILES]
  · norm_num [specCoarsestQualifyingLevel, octreeTwoLevels, MAX_TILES,
      List.range_succ, List.filter]
  · norm_num [qualifies, octreeTwoLevels, MAX_TILES]
  · norm_num [qualifies, octreeTwoLevels, MAX_TILES]

/-- Least-index characterization of the level-scanning loop. -/
theorem findQualifyingLevel_spec (nt mt : ℚ) (ls : List OctreeLevelInfoM) :
    (∀ j, findQualifyingLevel nt mt ls = some j →
      j < ls.length ∧ nt / (ls.getD j ⟨0⟩).scale < mt
        ∧ ∀ k, k < j → ¬nt / (ls.getD k ⟨0⟩).scale < mt)
    ∧ (findQualifyingLevel nt mt ls = none →
      ∀ k, k < ls.length → ¬nt / (ls.getD k ⟨0⟩).scale < mt) := by
  induction ls with
  | nil => exact ⟨fun j h => by simp [findQualifyingLevel] at h,
      fun _ k hk => absurd hk (by simp)⟩
  | cons level rest ih =>
    by_cases hc : nt / level.scale < mt
    · refine ⟨fun j hj => ?_, fun hn => ?_⟩
      · simp [findQualifyingLevel, hc] at hj
        subst hj
        exact ⟨Nat.succ_pos _, by simpa using hc, fun k hk => absurd hk (Nat.not_lt_zero k)⟩
      · simp [findQualifyingLevel, hc] at hn
    · refine ⟨fun j hj => ?_, fun hn => ?_⟩
      · simp [findQualifyingLevel, hc] at hj
        obtain ⟨j', hj', rfl⟩ := hj
        obtain ⟨h1, h2, h3⟩ := ih.1 j' hj'
        refine ⟨by simpa using h1, by simpa using h2, fun k hk => ?_⟩
        cases k with
        | zero => simpa using hc
        | succ k' =>
          have : k' < j' := Nat.lt_of_succ_lt_succ hk
          simpa using h3 k' this
      · simp [findQualifyingLevel, hc] at hn
        intro k hk
        cases k with
        | zero => simpa using hc
        | succ k' =>
          have : k' < rest.length := by simpa using hk
          simpa using ih.2 hn k' this

/-- C5 amended: with `auto_level`, the code picks the FINEST
(lowest-index) level whose `(span_width / tile_size) / level_scale` is
strictly below the maximum tile count, and returns the coarsest
available level (`num_levels - 1`) when no level qualifies. -/
theorem auto_level_picks_finest (octree : OctreeM) (octreeLevel : Nat)
    (corners : Corners2d) :
    (∀ i, qualifies octree corners i → i < octree.levels.length →
      getOctreeLevel octree octreeLevel corners true ≤ i
        ∧ qualifies octree corners
            (getOctreeLevel octree octreeLevel corners true))
    ∧ ((∀ i, i < octree.levels.length → ¬qualifies octree corners i) →
      getOctreeLevel octree octreeLevel corners true
        = octree.levels.length - 1) := by
  have hspec := findQualifyingLevel_spec
      ((corners.col1 - corners.col0) / octree.tile_size) MAX_TILES
      octree.levels
  constructor
  · intro i hi hilen
    cases hfind : findQualifyingLevel
        ((corners.col1 - corners.col0) / octree.tile_size) MAX_TILES
        octree.levels with
    | none =>
      exact absurd hi (hspec.2 hfind i hilen)
    | some j =>
      obtain ⟨h1, h2, h3⟩ := hspec.1 j hfind
      have hj : getOctreeLevel octree octreeLevel corners true = j := by
        simp [getOctreeLevel, hfind]
      constructor
      · rw [hj]
        by_contra hlt
        exact h3 i (Nat.lt_of_not_le hlt) hi
      · rw [hj]; exact h2
  · intro hnone
    cases hfind : findQualifyingLevel
        ((corners.col1 - corners.col0) / octree.tile_size) MAX_TILES
        octree.levels with
    | none => simp [getOctreeLevel, hfind]
    | some j =>
      obtain ⟨h1, h2, _⟩ := hspec.1 j hfind
      exact absurd h2 (hnone j h1)

/-- C5 amended, witness: on the two-level octree with view width 100,
level 0 qualifies, so the selected level is ≤ 0 and itself
qualifies. -/
theorem auto_level_picks_finest_witness :
    getOctreeLevel octreeTwoLevels 3 ⟨0, 0, 0, 100⟩ true ≤ 0
    ∧ qualifies octreeTwoLevels ⟨0, 0, 0, 100⟩
        (getOctreeLevel octreeTwoLevels 3 ⟨0, 0, 0, 100⟩ true) :=
  (auto_level_picks_finest octreeTwoLevels 3 ⟨0, 0, 0, 100⟩).1 0
    (by norm_num [qualifies, octreeTwoLevels, MAX_TILES]) (by decide)

/-! ## OctreeIntersection.tile_range
(src/napari/layers/image/experimental/octree_intersection.py)
-/

/-- Python `int()` on a rational value: truncation toward zero. -/
def pyInt (q : ℚ) : Int := if q < 0 then ⌈q⌉ else ⌊q⌋

/-- The local helper `_clamp(val, min_val, max_val)` of `tile_range`
(lines 57-58): `max(min(val, max_val), min_val)`. -/
def pyClamp (val minVal maxVal : ℚ) : ℚ := max (min val maxVal) minVal

/-- Embeds `OctreeIntersection.tile_range` (lines 54-70): divide both ends of
the span by the tile size, clamp to `[0, num_tiles - 1]`, add one to the
upper end, truncate both to `int`, and return `range(lo, hi)` described
by its two bounds. -/
def tileRange (tileSize : ℚ) (span : ℚ × ℚ) (numTiles : Nat) : Int × Int :=
  let spanTiles := (span.1 / tileSize, span.2 / tileSize)
  let clamped := (pyClamp spanTiles.1 0 ((numTiles : ℚ) - 1),
                  pyClamp spanTiles.2 0 ((numTiles : ℚ) - 1) + 1)
  (pyInt clamped.1, pyInt clamped.2)

/-- Python `range(a, b)`, as the list of indices it covers. -/
def pythonRange (a b : Int) : List Int :=
  (List.range (b - a).toNat).map (fun n => a + n)

/-- The column span `column_range` receives: `__init__` sets
`self.cols = self.corners_2d[:, 1]` and then `self.cols /= info.scale`
(lines 37, 49), so both column corners are divided by the level
scale. -/
def scaledColSpan (corners : Corners2d) (scale : ℚ) : ℚ × ℚ :=
  (corners.col0 / scale, corners.col1 / scale)

/-- C6: at tile size 100 and scale 1, a view spanning data-x 150 to 350
over a level at least 4 tile-columns wide yields the column range
`range(1, 4)`, i.e. exactly columns 1, 2 and 3: 1.5 truncates down to 1
and 3.5 becomes 4.5 by the `+1` widening (4 after clamping when exactly
4 columns exist), truncating to 4. -/
theorem tile_range_150_350 (numTiles : Nat) (h : 4 ≤ numTiles) :
    tileRange 100 (scaledColSpan ⟨0, 150, 0, 350⟩ 1) numTiles = (1, 4)
    ∧ pythonRange (tileRange 100 (scaledColSpan ⟨0, 150, 0, 350⟩ 1) numTiles).1
        (tileRange 100 (scaledColSpan ⟨0, 150, 0, 350⟩ 1) numTiles).2
      = [1, 2, 3] := by
  have hcast : (4 : ℚ) ≤ (numTiles : ℚ) := by exact_mod_cast h
  have hlo : pyClamp ((3 : ℚ) / 2) 0 ((numTiles : ℚ) - 1) = 3 / 2 := by
    unfold pyClamp
    rw [min_eq_left (by linarith), max_eq_left (by norm_num)]
  have hresult : tileRange 100 (scaledColSpan ⟨0, 150, 0, 350⟩ 1) numTiles
      = (1, 4) := by
    rcases Nat.eq_or_lt_of_le h with h4 | h5
    · subst h4
      unfold tileRange scaledColSpan pyClamp pyInt
      norm_num
    · have h5q : (5 : ℚ) ≤ (numTiles : ℚ) := by exact_mod_cast h5
      have hhi : pyClamp ((7 : ℚ) / 2) 0 ((numTiles : ℚ) - 1) = 7 / 2 := by
        unfold pyClamp
        rw [min_eq_left (by linarith), max_eq_left (by norm_num)]
      unfold tileRange scaledColSpan
      norm_num [hlo, hhi]
      unfold pyInt
      norm_num
  refine ⟨hresult, ?_⟩
  rw [hresult]
  decide

/-- C6, witness at exactly 4 tile columns. -/
theorem tile_range_150_350_witness :
    tileRange 100 (scaledColSpan ⟨0, 150, 0, 350⟩ 1) 4 = (1, 4)
    ∧ pythonRange (tileRange 100 (scaledColSpan ⟨0, 150, 0, 350⟩ 1) 4).1
        (tileRange 100 (scaledColSpan ⟨0, 150, 0, 350⟩ 1) 4).2
      = [1, 2, 3] :=
  tile_range_150_350 4 (by decide)

/-! ## OctreeIntersection.__init__ aliasing
(src/napari/layers/image/experimental/octree_intersection.py lines 25-52)

The constructor copies the caller's `corners_2d` numpy array
(`self.corners_2d = corners_2d.copy()`, line 30), takes the row/column
views `self.rows = self.corners_2d[:, 0]`, `self.cols =
self.corners_2d[:, 1]` into that copy, and divides them in place by the
level scale (lines 48-49).  Buffers and sharing are modelled by a heap
from buffer ids to 2×2 contents; `.copy()` allocates a fresh buffer.
The `normalized_range` computation (lines 41-46) only reads the copy and
builds new arrays, so it does not appear in the heap transitions.
-/

/-- A heap of numpy `corners_2d` buffers: buffer id → contents. -/
def NpStore : Type := Nat → Corners2d

/-- Write one buffer of the heap. -/
def storeSet (store : NpStore) (ref : Nat) (v : Corners2d) : NpStore :=
  fun n => if n = ref then v else store n

/-- The combined effect of the in-place `self.rows /= info.scale` and
`self.cols /= info.scale` on the buffer both views alias: all four
entries are divided by the scale. -/
def divideCorners (c : Corners2d) (scale : ℚ) : Corners2d :=
  ⟨c.row0 / scale, c.col0 / scale, c.row1 / scale, c.col1 / scale⟩

/-- The fields of an `OctreeIntersection` relevant here: which buffer
`self.corners_2d` refers to, and the computed tile ranges. -/
structure OctreeIntersectionM where
  cornersRef : Nat
  rowRange : Int × Int
  colRange : Int × Int

/-- Embeds `OctreeIntersection.__init__` as a heap transformer: allocate a
fresh buffer `freshRef` holding a copy of the caller's buffer
`callerRef`, divide that copy in place by the level scale, and compute
`self._row_range`/`self._col_range` from the scaled values via
`tile_range`. -/
def octreeIntersectionInit (store : NpStore) (callerRef freshRef : Nat)
    (scale tileSize : ℚ) (shapeInTiles : Nat × Nat) :
    NpStore × OctreeIntersectionM :=
  let store1 := storeSet store freshRef (store callerRef)
  let store2 := storeSet store1 freshRef (divideCorners (store1 freshRef) scale)
  let scaled := store2 freshRef
  (store2,
   { cornersRef := freshRef
     rowRange := tileRange tileSize (scaled.row0, scaled.row1) shapeInTiles.1
     colRange := tileRange tileSize (scaled.col0, scaled.col1) shapeInTiles.2 })

/-- C10: construction mutates only the freshly allocated copy — the
caller's corners buffer holds exactly the value it held before, so the
same array can be passed again to intersect another level.  (`freshRef ≠
callerRef` holds because numpy's `.copy()` always allocates a new
buffer.) -/
theorem intersection_preserves_caller_corners (store : NpStore)
    (callerRef freshRef : Nat) (scale tileSize : ℚ)
    (shapeInTiles : Nat × Nat) (h : freshRef ≠ callerRef) :
    (octreeIntersectionInit store callerRef freshRef scale tileSize
        shapeInTiles).1 callerRef
      = store callerRef := by
  have hne : ¬callerRef = freshRef := fun e => h e.symm
  simp [octreeIntersectionInit, storeSet, hne]

/-- C10 witness: a concrete heap whose buffer 0 holds the view corners
`(0,150)-(0,350)`; constructing the intersection into fresh buffer 1
with scale 2 leaves buffer 0 unchanged. -/
theorem intersection_preserves_caller_corners_witness :
    (octreeIntersectionInit (fun _ => ⟨0, 150, 0, 350⟩) 0 1 2 100
        (4, 4)).1 0
      = ⟨0, 150, 0, 350⟩ :=
  intersection_preserves_caller_corners (fun _ => ⟨0, 150, 0, 350⟩) 0 1 2 100
    (4, 4) (by decide)

/-! ## Load completion into the octree slice
(src/napari/layers/image/experimental/_octree_multiscale_slice.py
lines 140-185, `OctreeMultiscaleSlice.on_chunk_loaded`)
-/

/-- The tri-state status of an octree chunk (spec §3). -/
inductive ChunkStatus where
  | unloaded
  | loading
  | inMemory
deriving DecidableEq

/-- Modelled from the spec: `OctreeChunk` lives in `octree_chunk.py`,
which is not under `src/`.  Spec §3: one tile holds a data buffer and a
tri-state status {UNLOADED, LOADING, IN_MEMORY}, with IN_MEMORY implying
the data buffer is non-null. -/
structure OctreeChunkM where
  status : ChunkStatus
  data : Option Nat
deriving DecidableEq

/-- Modelled from the spec: assigning `octree_chunk.data = incoming`
stores the buffer and the chunk becomes IN_MEMORY (spec §4.6: "store the
data and mark IN_MEMORY"; the code's closing assertion `not ...
needs_load` checks exactly this). -/
def OctreeChunkM.setData (_ : OctreeChunkM) (d : Nat) : OctreeChunkM :=
  ⟨.inMemory, some d⟩

/-- Embeds `OctreeLocation` as read by `on_chunk_loaded`: the slice identity
tag (`slice_id`) and the octree coordinates
`(level_index, row, col)`. -/
structure OctreeLocation where
  slice_id : Nat
  level_index : Nat
  row : Nat
  col : Nat
deriving DecidableEq

/-- What `on_chunk_loaded` touches of an `OctreeMultiscaleSlice`: its
own identity `id(self)` and the tile grid reached through
`self._octree.levels[level].tiles[row][col]`
(`_get_octree_chunk`, lines 136-138).  A grid position holding anything
that is not an `OctreeChunk` is `none`. -/
structure SliceState where
  slice_id : Nat
  tiles : Nat × Nat × Nat → Option OctreeChunkM

/-- Embeds `OctreeMultiscaleSlice.on_chunk_loaded` (lines 140-185): a location
tagged with a different `slice_id` is ignored (`return False`, nothing
mutated); a location whose grid position holds no `OctreeChunk` is
logged and ignored; otherwise the request's data is stored into the
chunk and `True` is returned. -/
def onChunkLoaded (st : SliceState) (location : OctreeLocation)
    (incoming : Nat) : Bool × SliceState :=
  if location.slice_id ≠ st.slice_id then (false, st)
  else
    match st.tiles (location.level_index, location.row, location.col) with
    | none => (false, st)
    | some chunk =>
        (true,
         { st with
            tiles := fun p =>
              if p = (location.level_index, location.row, location.col) then
                some (chunk.setData incoming)
              else st.tiles p })

/-- C9: a completion whose location tag differs from the active slice
identity is discarded with every tile (data and status) unchanged; a
completion whose tag matches and whose target chunk exists stores the
data, the target chunk becomes IN_MEMORY holding exactly the incoming
data, and every other tile is untouched. -/
theorem on_chunk_loaded_policy (st : SliceState) (location : OctreeLocation)
    (incoming : Nat) :
    (location.slice_id ≠ st.slice_id →
      onChunkLoaded st location incoming = (false, st))
    ∧ (location.slice_id = st.slice_id →
      ∀ chunk,
        st.tiles (location.level_index, location.row, location.col)
          = some chunk →
        (onChunkLoaded st location incoming).1 = true
        ∧ (onChunkLoaded st location incoming).2.tiles
            (location.level_index, location.row, location.col)
          = some ⟨.inMemory, some incoming⟩
        ∧ ∀ p, p ≠ (location.level_index, location.row, location.col) →
            (onChunkLoaded st location incoming).2.tiles p = st.tiles p) := by
  constructor
  · intro hne
    simp [onChunkLoaded, hne]
  · intro heq chunk hchunk
    refine ⟨?_, ?_, ?_⟩
    · simp [onChunkLoaded, heq, hchunk]
    · simp [onChunkLoaded, heq, hchunk, OctreeChunkM.setData]
    · intro p hp
      simp [onChunkLoaded, heq, hchunk, hp]

/-- C9 witness: a slice with identity 5 whose grid holds an unloaded
chunk at `(0, 1, 2)`.  A completion tagged with slice 6 is discarded
unchanged; a completion tagged with slice 5 stores data 42 and the chunk
becomes IN_MEMORY. -/
theorem on_chunk_loaded_policy_witness :
    onChunkLoaded
        { slice_id := 5,
          tiles := fun p =>
            if p = (0, 1, 2) then some ⟨.unloaded, none⟩ else none }
        ⟨6, 0, 1, 2⟩ 42
      = (false,
         { slice_id := 5,
           tiles := fun p =>
             if p = (0, 1, 2) then some ⟨.unloaded, none⟩ else none })
    ∧ (onChunkLoaded
        { slice_id := 5,
          tiles := fun p =>
            if p = (0, 1, 2) then some ⟨.unloaded, none⟩ else none }
        ⟨5, 0, 1, 2⟩ 42).2.tiles (0, 1, 2)
      = some ⟨.inMemory, some 42⟩ :=
  ⟨(on_chunk_loaded_policy
      { slice_id := 5,
        tiles := fun p =>
          if p = (0, 1, 2) then some ⟨.unloaded, none⟩ else none }
      ⟨6, 0, 1, 2⟩ 42).1 (by decide),
   ((on_chunk_loaded_policy
      { slice_id := 5,
        tiles := fun p =>
          if p = (0, 1, 2) then some ⟨.unloaded, none⟩ else none }
      ⟨5, 0, 1, 2⟩ 42).2 rfl ⟨.unloaded, none⟩ (by simp)).2.1⟩

/-! ## OctreeChunkLoader.get_drawable_chunks
(src/napari/layers/image/experimental/_octree_chunk_loader.py)

Chunks are identified by their keys (`OctreeChunkKey`, here `Nat`); the
pass state carries the chunk states and the `_last_visible` key set.
`chunk_loader.cache.enabled` and the outcome of
`chunk_loader.load_chunk` (a satisfied request, or `None` for an
initiated async load) are the pass's environment.  The chunk attributes
`in_memory`, `loading`, `clear()` and the data setter come from
`octree_chunk.py`, which is not under `src/`; they are modelled from the
spec (§3, §4.6) through `OctreeChunkM`.
-/

/-- Embeds `octree_chunk.in_memory`. -/
def OctreeChunkM.inMem (c : OctreeChunkM) : Bool := c.status == .inMemory

/-- Embeds `octree_chunk.loading`. -/
def OctreeChunkM.isLoading (c : OctreeChunkM) : Bool := c.status == .loading

/-- Modelled from the spec: `OctreeChunk.clear()` — "forcibly clear its
data and reset it to UNLOADED" (spec §4.6 step 2). -/
def OctreeChunkM.clear (_ : OctreeChunkM) : OctreeChunkM := ⟨.unloaded, none⟩

/-- Python `set.add` on a set represented as a duplicate-free list. -/
def setAdd (l : List Nat) (k : Nat) : List Nat :=
  if k ∈ l then l else l ++ [k]

/-- The pass environment: the global cache's `enabled` flag and the
result `chunk_loader.load_chunk` would give for each key (`some data`
for a synchronous load, `none` when an async load is initiated). -/
structure PassEnv where
  cacheEnabled : Bool
  syncLoad : Nat → Option Nat

/-- Embeds `OctreeChunkLoader` state: the octree's chunk states (by key) and
`self._last_visible`. -/
structure OCLState where
  chunks : Nat → OctreeChunkM
  lastVisible : List Nat

/-- Lines 80-85 of `get_drawable_chunks`: when the cache is disabled and
this chunk is newly in view (`key not in self._last_visible`) while
already in memory, clear it so it gets reloaded. -/
def clearIfStale (cacheEnabled : Bool) (lastVisible : List Nat) (key : Nat)
    (c : OctreeChunkM) : OctreeChunkM :=
  if !cacheEnabled && !(decide (key ∈ lastVisible)) && c.inMem then
    c.clear
  else c

/-- Embeds `OctreeChunkLoader._load_chunk` (lines 114-160): mark the chunk
loading and call the ChunkLoader; a synchronous result is stored into
the chunk (which becomes IN_MEMORY) and reported as `true`; otherwise
the chunk stays loading. -/
def loadChunk (syncLoad : Nat → Option Nat) (key : Nat)
    (c : OctreeChunkM) : OctreeChunkM × Bool :=
  let c1 : OctreeChunkM := { c with status := .loading }
  match syncLoad key with
  | some d => (c1.setData d, true)
  | none => (c1, false)

/-- The body of the visible-chunk loop (lines 78-106): the possible
disabled-cache clear, then draw an in-memory chunk, skip a loading
chunk, and otherwise initiate a load.  Returns the chunk's new state,
whether it was appended to `drawable`, and whether a load request was
submitted for it. -/
def processChunk (env : PassEnv) (lastVisible : List Nat) (key : Nat)
    (c0 : OctreeChunkM) : OctreeChunkM × Bool × Bool :=
  let c := clearIfStale env.cacheEnabled lastVisible key c0
  if c.inMem then (c, true, false)
  else if c.isLoading then (c, false, false)
  else
    let r := loadChunk env.syncLoad key c
    (r.1, r.2, true)

/-- One `foldl` step over the visible list: apply `processChunk` to the
current state of the visited key and extend the `drawable` and
`submitted` accumulators. -/
def drawStep (env : PassEnv) (lastVis : List Nat)
    (acc : (Nat → OctreeChunkM) × List Nat × List Nat) (key : Nat) :
    (Nat → OctreeChunkM) × List Nat × List Nat :=
  let r := processChunk env lastVis key (acc.1 key)
  (fun k => if k = key then r.1 else acc.1 k,
   if r.2.1 then acc.2.1 ++ [key] else acc.2.1,
   if r.2.2 then acc.2.2 ++ [key] else acc.2.2)

/-- Embeds `OctreeChunkLoader.get_drawable_chunks` (lines 33-112): prune
`_last_visible` to the currently visible keys (lines 59-65), walk the
visible chunks in order, then add every drawn key to `_last_visible`
(lines 108-110).  Returns the drawable keys in visit order, the new
state, and the keys for which a load request was submitted. -/
def getDrawableChunks (env : PassEnv) (visible : List Nat)
    (st : OCLState) : List Nat × OCLState × List Nat :=
  let lastVis := st.lastVisible.filter (fun k => decide (k ∈ visible))
  let res := visible.foldl (drawStep env lastVis) (st.chunks, [], [])
  (res.2.1,
   { chunks := res.1, lastVisible := res.2.1.foldl setAdd lastVis },
   res.2.2)

/-- A chunk the disabled-cache rule leaves alone and that is in memory
stays in memory across the whole loop, is drawn at each of its visits,
and never has a load submitted. -/
theorem foldl_drawStep_inmem (env : PassEnv) (lastVis : List Nat)
    (key : Nat)
    (hstable : ∀ c : OctreeChunkM, c.status = .inMemory →
      clearIfStale env.cacheEnabled lastVis key c = c) :
    ∀ (l : List Nat) (chunks : Nat → OctreeChunkM) (dr sub : List Nat),
      (chunks key).status = .inMemory → key ∉ sub →
      (((l.foldl (drawStep env lastVis) (chunks, dr, sub)).1 key).status
          = .inMemory)
      ∧ ((key ∈ l ∨ key ∈ dr) →
          key ∈ (l.foldl (drawStep env lastVis) (chunks, dr, sub)).2.1)
      ∧ key ∉ (l.foldl (drawStep env lastVis) (chunks, dr, sub)).2.2 := by
  intro l
  induction l with
  | nil =>
    intro chunks dr sub hmem hsub
    refine ⟨hmem, fun h => ?_, hsub⟩
    simpa using h.resolve_left (by simp)
  | cons x xs ih =>
    intro chunks dr sub hmem hsub
    by_cases hx : x = key
    · subst hx
      have hproc : processChunk env lastVis x (chunks x)
          = (chunks x, true, false) := by
        simp [processChunk, hstable _ hmem, OctreeChunkM.inMem, hmem]
      have hstep : drawStep env lastVis (chunks, dr, sub) x
          = (fun k => if k = x then chunks x else chunks k,
             dr ++ [x], sub) := by
        simp [drawStep, hproc]
      rw [List.foldl_cons, hstep]
      have := ih (fun k => if k = x then chunks x else chunks k)
          (dr ++ [x]) sub (by simpa using hmem) hsub
      exact ⟨this.1, fun _ => this.2.1 (Or.inr (by simp)), this.2.2⟩
    · rcases hproc : processChunk env lastVis x (chunks x)
          with ⟨c1, draw, sub1⟩
      have hstep : drawStep env lastVis (chunks, dr, sub) x
          = (fun k => if k = x then c1 else chunks k,
             if draw then dr ++ [x] else dr,
             if sub1 then sub ++ [x] else sub) := by
        simp [drawStep, hproc]
      rw [List.foldl_cons, hstep]
      have hkxne : ¬key = x := fun h => hx h.symm
      have hsub' : key ∉ (if sub1 then sub ++ [x] else sub) := by
        cases sub1 <;> simp_all
      have := ih (fun k => if k = x then c1 else chunks k)
          (if draw then dr ++ [x] else dr) (if sub1 then sub ++ [x] else sub)
          (by simp only [if_neg hkxne]; exact hmem) hsub'
      refine ⟨this.1, fun h => ?_, this.2.2⟩
      refine this.2.1 ?_
      rcases h with h | h
      · rcases List.mem_cons.mp h with h | h
        · exact absurd h.symm hx
        · exact Or.inl h
      · cases draw <;> simp_all
/-- A loading chunk stays loading across the whole loop, is never drawn
and never has a second load submitted. -/
theorem foldl_drawStep_loading (env : PassEnv) (lastVis : List Nat)
    (key : Nat) :
    ∀ (l : List Nat) (chunks : Nat → OctreeChunkM) (dr sub : List Nat),
      (chunks key).status = .loading → key ∉ dr → key ∉ sub →
      (((l.foldl (drawStep env lastVis) (chunks, dr, sub)).1 key).status
          = .loading)
      ∧ key ∉ (l.foldl (drawStep env lastVis) (chunks, dr, sub)).2.1
      ∧ key ∉ (l.foldl (drawStep env lastVis) (chunks, dr, sub)).2.2 := by
  intro l
  induction l with
  | nil =>
    intro chunks dr sub hmem hdr hsub
    exact ⟨hmem, hdr, hsub⟩
  | cons x xs ih =>
    intro chunks dr sub hmem hdr hsub
    by_cases hx : x = key
    · subst hx
      have hclear : clearIfStale env.cacheEnabled lastVis x (chunks x)
          = chunks x := by
        simp [clearIfStale, OctreeChunkM.inMem, hmem]
      have hproc : processChunk env lastVis x (chunks x)
          = (chunks x, false, false) := by
        simp [processChunk, hclear, OctreeChunkM.inMem,
          OctreeChunkM.isLoading, hmem]
      have hstep : drawStep env lastVis (chunks, dr, sub) x
          = (fun k => if k = x then chunks x else chunks k, dr, sub) := by
        simp [drawStep, hproc]
      rw [List.foldl_cons, hstep]
      exact ih _ dr sub (by simpa using hmem) hdr hsub
    · rcases hproc : processChunk env lastVis x (chunks x)
          with ⟨c1, draw, sub1⟩
      have hstep : drawStep env lastVis (chunks, dr, sub) x
          = (fun k => if k = x then c1 else chunks k,
             if draw then dr ++ [x] else dr,
             if sub1 then sub ++ [x] else sub) := by
        simp [drawStep, hproc]
      rw [List.foldl_cons, hstep]
      have hkxne : ¬key = x := fun h => hx h.symm
      have hdr' : key ∉ (if draw then dr ++ [x] else dr) := by
        cases draw <;> simp_all
      have hsub' : key ∉ (if sub1 then sub ++ [x] else sub) := by
        cases sub1 <;> simp_all
      exact ih _ _ _ (by simp only [if_neg hkxne]; exact hmem) hdr' hsub'

/-- Every key the loop puts into `drawable` was in the accumulator
already or is one of the visited keys. -/
theorem foldl_drawStep_drawable_from (env : PassEnv) (lastVis : List Nat) :
    ∀ (l : List Nat) (chunks : Nat → OctreeChunkM) (dr sub : List Nat)
      (k : Nat),
      k ∈ (l.foldl (drawStep env lastVis) (chunks, dr, sub)).2.1 →
      k ∈ dr ∨ k ∈ l := by
  intro l
  induction l with
  | nil =>
    intro chunks dr sub k h
    exact Or.inl (by simpa using h)
  | cons x xs ih =>
    intro chunks dr sub k h
    rw [List.foldl_cons] at h
    rcases hproc : processChunk env lastVis x (chunks x)
        with ⟨c1, draw, sub1⟩
    rw [show drawStep env lastVis (chunks, dr, sub) x
        = (fun k => if k = x then c1 else chunks k,
           if draw then dr ++ [x] else dr,
           if sub1 then sub ++ [x] else sub) by simp [drawStep, hproc]] at h
    rcases ih _ _ _ k h with h' | h'
    · cases draw with
      | false => exact Or.inl h'
      | true =>
        rcases List.mem_append.mp h' with h'' | h''
        · exact Or.inl h''
        · exact Or.inr (by simp_all)
    · exact Or.inr (List.mem_cons_of_mem x h')

/-- Membership after folding `set.add` over the drawn keys. -/
theorem mem_foldl_setAdd :
    ∀ (dl l : List Nat) (k : Nat), k ∈ dl.foldl setAdd l →
      k ∈ l ∨ k ∈ dl := by
  intro dl
  induction dl with
  | nil => intro l k h; exact Or.inl (by simpa using h)
  | cons x xs ih =>
    intro l k h
    rw [List.foldl_cons] at h
    rcases ih (setAdd l x) k h with h' | h'
    · unfold setAdd at h'
      split at h'
      · exact Or.inl h'
      · rcases List.mem_append.mp h' with h'' | h''
        · exact Or.inl h''
        · exact Or.inr (by simp_all)
    · exact Or.inr (List.mem_cons_of_mem x h')

/-- C7 counterexample: with the cache disabled, chunk 0 already in
memory (data 7), newly visible, and an asynchronous loader, the pass
clears the chunk, SUBMITS a load for it, and does NOT include it in the
drawable result — refuting the unconditional claim that an in-memory
chunk is always drawn and never re-loaded. -/
theorem inmemory_not_drawn_when_cache_disabled :
    (getDrawableChunks ⟨false, fun _ => none⟩ [0]
        ⟨fun _ => ⟨.inMemory, some 7⟩, []⟩).1 = []
    ∧ (getDrawableChunks ⟨false, fun _ => none⟩ [0]
        ⟨fun _ => ⟨.inMemory, some 7⟩, []⟩).2.2 = [0] := ⟨rfl, rfl⟩

/-- C7 amended: during one reconciliation pass, a visible chunk that is
in memory at the start of the pass is included in the drawable result
with no load submitted for it, PROVIDED the cache is enabled or the
chunk was already visible last frame (otherwise the disabled-cache rule
clears and reloads it); a visible chunk in the loading state is never
included in the result and never has a second load submitted. -/
theorem drawable_policy (env : PassEnv) (visible : List Nat)
    (st : OCLState) (key : Nat) (hvis : key ∈ visible) :
    ((st.chunks key).status = .inMemory →
      env.cacheEnabled = true ∨ key ∈ st.lastVisible →
      key ∈ (getDrawableChunks env visible st).1
      ∧ key ∉ (getDrawableChunks env visible st).2.2)
    ∧ ((st.chunks key).status = .loading →
      key ∉ (getDrawableChunks env visible st).1
      ∧ key ∉ (getDrawableChunks env visible st).2.2) := by
  constructor
  · intro hmem hcase
    have hstable : ∀ c : OctreeChunkM, c.status = .inMemory →
        clearIfStale env.cacheEnabled
          (st.lastVisible.filter (fun k => decide (k ∈ visible))) key c
          = c := by
      intro c hc
      rcases hcase with hc' | hc'
      · simp [clearIfStale, hc']
      · have hin : key ∈ st.lastVisible.filter
            (fun k => decide (k ∈ visible)) :=
          List.mem_filter.mpr ⟨hc', by simpa using hvis⟩
        simp [clearIfStale, hin]
    have h := foldl_drawStep_inmem env
        (st.lastVisible.filter (fun k => decide (k ∈ visible))) key hstable
        visible st.chunks [] [] hmem (by simp)
    exact ⟨h.2.1 (Or.inl hvis), h.2.2⟩
  · intro hload
    have h := foldl_drawStep_loading env
        (st.lastVisible.filter (fun k => decide (k ∈ visible))) key
        visible st.chunks [] [] hload (by simp) (by simp)
    exact ⟨h.2.1, h.2.2⟩

/-- C7 amended, witness: cache enabled, chunk 0 in memory and visible:
it is drawn and no load is submitted. -/
theorem drawable_policy_witness :
    0 ∈ (getDrawableChunks ⟨true, fun _ => none⟩ [0]
        ⟨fun _ => ⟨.inMemory, some 7⟩, []⟩).1
    ∧ 0 ∉ (getDrawableChunks ⟨true, fun _ => none⟩ [0]
        ⟨fun _ => ⟨.inMemory, some 7⟩, []⟩).2.2 :=
  (drawable_policy ⟨true, fun _ => none⟩ [0]
      ⟨fun _ => ⟨.inMemory, some 7⟩, []⟩ 0 (by decide)).1 rfl (Or.inl rfl)

/-- C8: with the cache disabled, a tile that left the visible set is no
longer in `_last_visible` after the pass in which it was out of view
(first conjunct); and when it reappears while marked in-memory, the loop
body first resets it to UNLOADED with its data cleared (second
conjunct), then runs the load step on the CLEARED chunk (third
conjunct), so the final state carries only data freshly returned by the
loader — independent of whatever data the tile previously held (fourth
conjunct, whose right-hand side does not mention `d`): status goes
IN_MEMORY → UNLOADED → (LOADING → IN_MEMORY on a synchronous load, or
stays LOADING until the async completion arrives). -/
theorem disabled_cache_forces_reload (env : PassEnv) (st : OCLState)
    (visibleA : List Nat) (key : Nat)
    (hcache : env.cacheEnabled = false) (hout : key ∉ visibleA) :
    key ∉ ((getDrawableChunks env visibleA st).2.1).lastVisible
    ∧ ∀ (lastVis : List Nat), key ∉ lastVis → ∀ d : Option Nat,
        clearIfStale env.cacheEnabled lastVis key ⟨.inMemory, d⟩
          = ⟨.unloaded, none⟩
        ∧ processChunk env lastVis key ⟨.inMemory, d⟩
            = (let r := loadChunk env.syncLoad key ⟨.unloaded, none⟩
               (r.1, r.2, true))
        ∧ processChunk env lastVis key ⟨.inMemory, d⟩
            = (match env.syncLoad key with
               | some v => (⟨.inMemory, some v⟩, true, true)
               | none => (⟨.loading, none⟩, false, true)) := by
  constructor
  · intro hmem
    have hmem' : key ∈ ((visibleA.foldl
        (drawStep env (st.lastVisible.filter
          (fun k => decide (k ∈ visibleA)))) (st.chunks, [], [])).2.1).foldl
        setAdd (st.lastVisible.filter (fun k => decide (k ∈ visibleA))) :=
      hmem
    rcases mem_foldl_setAdd _ _ _ hmem' with h | h
    · exact hout (by simpa using (List.mem_filter.mp h).2)
    · rcases foldl_drawStep_drawable_from env _ visibleA st.chunks [] [] key h
          with h' | h'
      · simp at h'
      · exact hout h'
  · intro lastVis hnm d
    have hdec : decide (key ∈ lastVis) = false := decide_eq_false hnm
    have hclear : clearIfStale env.cacheEnabled lastVis key ⟨.inMemory, d⟩
        = ⟨.unloaded, none⟩ := by
      simp [clearIfStale, hcache, hdec, OctreeChunkM.inMem,
        OctreeChunkM.clear]
    refine ⟨hclear, ?_, ?_⟩
    · simp [processChunk, hclear, OctreeChunkM.inMem, OctreeChunkM.isLoading]
    · cases hs : env.syncLoad key with
      | none =>
        simp [processChunk, hclear, OctreeChunkM.inMem,
          OctreeChunkM.isLoading, loadChunk, hs]
      | some v =>
        simp [processChunk, hclear, OctreeChunkM.inMem,
          OctreeChunkM.isLoading, loadChunk, hs, OctreeChunkM.setData]

/-- C8 witness: cache disabled, synchronous loader returning fresh data
99, tile 0 out of view in a pass over `[1]` and previously holding data
7: it is dropped from `_last_visible`, and on reappearing it is cleared
to UNLOADED and ends IN_MEMORY with the loader's data 99, not 7. -/
theorem disabled_cache_forces_reload_witness :
    0 ∉ ((getDrawableChunks ⟨false, fun _ => some 99⟩ [1]
        ⟨fun _ => ⟨.inMemory, some 7⟩, [0]⟩).2.1).lastVisible
    ∧ clearIfStale false [] 0 ⟨.inMemory, some 7⟩ = ⟨.unloaded, none⟩
    ∧ processChunk ⟨false, fun _ => some 99⟩ [] 0 ⟨.inMemory, some 7⟩
        = (⟨.inMemory, some 99⟩, true, true) :=
  ⟨(disabled_cache_forces_reload ⟨false, fun _ => some 99⟩
      ⟨fun _ => ⟨.inMemory, some 7⟩, [0]⟩ [1] 0 rfl (by decide)).1,
   ((disabled_cache_forces_reload ⟨false, fun _ => some 99⟩
      ⟨fun _ => ⟨.inMemory, some 7⟩, [0]⟩ [1] 0 rfl (by decide)).2 []
      (by decide) (some 7)).1,
   ((disabled_cache_forces_reload ⟨false, fun _ => some 99⟩
      ⟨fun _ => ⟨.inMemory, some 7⟩, [0]⟩ [1] 0 rfl (by decide)).2 []
      (by decide) (some 7)).2.2⟩

end Napari
